import Mathlib

/-!
Verification of the ProtoMesh lock arbitration engine
(`src/protomesh/core/lock_manager.py` and the HTTP facade in
`src/protomesh/api/main.py`).

The engine keeps all state in a Redis-like atomic store; every mutating
operation is a single server-side Lua script, so concurrent operations
interleave serially at the store.  We embed the store shallowly: each key
family (`lock:T:R`, `lock_meta:L`, `queue:T:R`, `agent_lock:T:R:A`,
`cancel:T:R:A`) becomes a field of a `Store` record, a sorted set becomes an
association list from member to score, and every script becomes a pure
function `Store → Store × Result`.  Environmental inputs — the freshly minted
uuid4 lock id, the host clock and the store clock (`TIME`) — are passed as
explicit parameters; TTL expiry between scripts is modeled as separate
environmental deletion steps.
-/

namespace ProtoMesh

/-! ### Sorted-set (Redis ZSET) model: association list member score -/

/-- ZSCORE: the score of member `a`, if present. -/
def zscore : List (String × Int) → String → Option Int
  | [], _ => none
  | (b, sc) :: rest, a => if b = a then some sc else zscore rest a

/-- ZADD: insert member `a` with score `sc`, replacing an existing entry. -/
def zadd : List (String × Int) → String → Int → List (String × Int)
  | [], a, sc => [(a, sc)]
  | (b, t) :: rest, a, sc =>
    if b = a then (a, sc) :: rest else (b, t) :: zadd rest a sc

/-- ZREM: remove member `a`. -/
def zrem (q : List (String × Int)) (a : String) : List (String × Int) :=
  q.filter (fun x => x.1 ≠ a)

/-- The ZSET ordering: by score ascending, ties lexicographically on the
member string (Redis's stable tie-break). -/
def zbetter (x y : String × Int) : Bool :=
  decide (x.2 < y.2) || (decide (x.2 = y.2) && decide (x.1 < y.1))

/-- The minimal entry of an (unsorted) association list under `zbetter`. -/
def zminEntry : List (String × Int) → Option (String × Int)
  | [] => none
  | x :: xs =>
    match zminEntry xs with
    | none => some x
    | some m => some (if zbetter m x then m else x)

/-- ZPOPMIN: the minimal entry together with the remaining queue. -/
def zpopmin (q : List (String × Int)) :
    Option ((String × Int) × List (String × Int)) :=
  match zminEntry q with
  | none => none
  | some m => some (m, q.erase m)

/-- ZRANK: zero-based rank of member `a` in (score, member) order. -/
def zrank (q : List (String × Int)) (a : String) : Option Nat :=
  match zscore q a with
  | none => none
  | some sc => some (q.filter (fun x => zbetter x (a, sc))).length

/-! ### Decimal rendering (Lua `tostring` of an integer, Redis `TIME`) -/

/-- One decimal digit character. -/
def digitChar : Nat → Char
  | 0 => '0' | 1 => '1' | 2 => '2' | 3 => '3' | 4 => '4'
  | 5 => '5' | 6 => '6' | 7 => '7' | 8 => '8' | 9 => '9'
  | _ => '0'

/-- Accumulator pass producing the decimal digits of `n`; structural on a
fuel argument so that it reduces inside the kernel (`fuel = n + 1` digits
always suffice). -/
def decimalStrAux : Nat → Nat → List Char → List Char
  | 0, _, acc => acc
  | fuel + 1, n, acc =>
    if n < 10 then digitChar n :: acc
    else decimalStrAux fuel (n / 10) (digitChar (n % 10) :: acc)

/-- Decimal string of a natural number. -/
def decimalStr (n : Nat) : String := ⟨decimalStrAux (n + 1) n []⟩

/-! ### Store and result shapes -/

/-- The fields of a `lock_meta:{L}` hash, exactly as written by the engine.
The `lock_key` string `"lock:T:R"` is kept structurally as the pair of its
two components; `resource_type` / `resource_id` are stored separately by the
source and are therefore separate fields here. -/
structure LockMeta where
  lockKeyT : String
  lockKeyR : String
  agentId : String
  lockId : String
  acquiredAt : String
  resourceType : String
  resourceId : String
deriving DecidableEq, Repr

/-- The whole keyed state held in the atomic store, one field per key family,
plus the `lock_id_counter` key and the pub/sub log. -/
structure Store where
  lock : String → String → Option String
  lockTtl : String → String → Nat
  meta : String → Option LockMeta
  metaTtl : String → Nat
  queue : String → String → List (String × Int)
  agentLock : String → String → String → Option String
  agentLockTtl : String → String → String → Nat
  cancel : String → String → String → Bool
  cancelTtl : String → String → String → Nat
  counter : Nat
  published : List (String × String × String × String)

/-- Point update of a singly keyed map. -/
def upd1 {α : Type} (f : String → α) (k : String) (v : α) : String → α :=
  fun x => if x = k then v else f x

/-- Point update of a doubly keyed map. -/
def upd2 {α : Type} (f : String → String → α) (k1 k2 : String) (v : α) :
    String → String → α :=
  fun x y => if x = k1 ∧ y = k2 then v else f x y

/-- Point update of a triply keyed map. -/
def upd3 {α : Type} (f : String → String → String → α)
    (k1 k2 k3 : String) (v : α) : String → String → String → α :=
  fun x y z => if x = k1 ∧ y = k2 ∧ z = k3 then v else f x y z

/-- The store with no keys at all. -/
def emptyStore : Store where
  lock := fun _ _ => none
  lockTtl := fun _ _ => 0
  meta := fun _ => none
  metaTtl := fun _ => 0
  queue := fun _ _ => []
  agentLock := fun _ _ _ => none
  agentLockTtl := fun _ _ _ => 0
  cancel := fun _ _ _ => false
  cancelTtl := fun _ _ _ => 0
  counter := 0
  published := []

/-- Result dictionary of `acquire_lock` as built by the Python wrapper. -/
structure AcquireResult where
  status : String
  message : Option String := none
  lockId : Option String := none
  expiresIn : Option Nat := none
  position : Option Nat := none
  extended : Bool := false
deriving DecidableEq, Repr

/-- Result dictionary of `release_lock`. -/
structure ReleaseResult where
  status : String
  message : Option String := none
  nextAgent : Option String := none
  nextLockId : Option String := none
deriving DecidableEq, Repr

/-- Result dictionary of `cancel_lock_request`. -/
structure CancelResult where
  status : String
  detail : String
deriving DecidableEq, Repr

/-- Result dictionary of `extend_lock`. -/
structure ExtendResult where
  status : String
  message : Option String := none
  newTtl : Option Nat := none
deriving DecidableEq, Repr

/-- Result dictionary of `check_lock_status`. -/
structure StatusResult where
  status : String
  agentId : Option String := none
  acquiredAt : Option String := none
  resourceType : Option String := none
  resourceId : Option String := none
deriving DecidableEq, Repr

/-! ### Acquire (`acquire_lock`, lock_manager.py lines 13-176) -/

/-- Python's `ttl = ttl or self.default_ttl`: `None` and `0` both fall back
to the default. -/
def effectiveTtl (defaultTtl : Nat) (ttl : Option Nat) : Nat :=
  match ttl with
  | some v => if v = 0 then defaultTtl else v
  | none => defaultTtl

/-- The tail of the acquire script after the cancel-flag and re-entrancy
checks: `SET NX` on the lock key, else join the priority queue.  The Lua
falls through to this code both when the caller is not the current owner and
when a re-entrant owner's `agent_lock` mapping is missing. -/
def acquireMain (s : Store) (T R A : String) (priority : Int) (t : Nat)
    (newLockId acquiredAt : String) : Store × AcquireResult :=
  match s.lock T R with
  | none =>
    ({ s with
        lock := upd2 s.lock T R (some A)
        lockTtl := upd2 s.lockTtl T R t
        meta := upd1 s.meta newLockId (some
          { lockKeyT := T, lockKeyR := R, agentId := A, lockId := newLockId,
            acquiredAt := acquiredAt, resourceType := T, resourceId := R })
        metaTtl := upd1 s.metaTtl newLockId t
        agentLock := upd3 s.agentLock T R A (some newLockId)
        agentLockTtl := upd3 s.agentLockTtl T R A t },
     { status := "acquired", lockId := some newLockId, expiresIn := some t })
  | some _ =>
    match zscore (s.queue T R) A with
    | some _ =>
      ({ s with
          agentLock := upd3 s.agentLock T R A (some newLockId)
          agentLockTtl := upd3 s.agentLockTtl T R A 3600 },
       { status := "queued", lockId := some newLockId,
         position := some (match zrank (s.queue T R) A with
                           | some p => p + 1 | none => 1) })
    | none =>
      let q := zadd (s.queue T R) A (-priority)
      ({ s with
          queue := upd2 s.queue T R q
          agentLock := upd3 s.agentLock T R A (some newLockId)
          agentLockTtl := upd3 s.agentLockTtl T R A 3600 },
       { status := "queued", lockId := some newLockId,
         position := some (match zrank q A with
                           | some p => p + 1 | none => 1) })

/-- `acquire_lock(resource_type, resource_id, agent_id, priority, ttl,
allow_reentrant)`.  `newLockId` is the uuid4 string minted by the wrapper and
`acquiredAt` the host-clock ISO timestamp it passes as `ARGV[4]`. -/
def acquireLock (s : Store) (defaultTtl : Nat) (T R A : String)
    (priority : Int) (ttl : Option Nat) (newLockId acquiredAt : String)
    (allowReentrant : Bool) : Store × AcquireResult :=
  let t := effectiveTtl defaultTtl ttl
  if s.cancel T R A then
    ({ s with cancel := upd3 s.cancel T R A false },
     { status := "cancelled", message := some "Lock request was cancelled" })
  else if s.lock T R = some A then
    if allowReentrant then
      match s.agentLock T R A with
      | some existingId =>
        ({ s with
            lockTtl := upd2 s.lockTtl T R t
            metaTtl := if (s.meta existingId).isSome
                       then upd1 s.metaTtl existingId t else s.metaTtl
            agentLockTtl := upd3 s.agentLockTtl T R A t },
         { status := "already_owned", lockId := some existingId,
           expiresIn := some t, extended := true })
      | none => acquireMain s T R A priority t newLockId acquiredAt
    else
      (s, { status := "error",
            message := some
              "Agent already holds this lock (re-entrancy not allowed)" })
  else
    acquireMain s T R A priority t newLockId acquiredAt

/-! ### Release (`release_lock`, lock_manager.py lines 178-370) -/

/-- The bounded handoff loop of the release script (`max_retries = 10`):
repeatedly `ZPOPMIN` the queue at the resource of the lock key `(T, R)`,
skipping (and cleaning up after) agents whose cancel flag at the metadata
resource `(RT, RI)` is set; for the first surviving agent resolve the pending
lock id from `agent_lock:RT:RI:agent`, falling back to
`"fallback_" .. INCR lock_id_counter` when the mapping is gone.  Returns the
mutated store and, if found, the agent, its original queue score, and the
resolved next lock id. -/
def handoffLoop : Nat → Store → String → String → String → String →
    Store × Option (String × Int × String)
  | 0, s, _, _, _, _ => (s, none)
  | fuel + 1, s, T, R, RT, RI =>
    match zpopmin (s.queue T R) with
    | none => (s, none)
    | some ((a, sc), rest) =>
      let s1 := { s with queue := upd2 s.queue T R rest }
      if s1.cancel RT RI a then
        handoffLoop fuel
          { s1 with
              cancel := upd3 s1.cancel RT RI a false
              agentLock := upd3 s1.agentLock RT RI a none } T R RT RI
      else
        match s1.agentLock RT RI a with
        | some lid => (s1, some (a, sc, lid))
        | none =>
          let c := s1.counter + 1
          ({ s1 with counter := c }, some (a, sc, "fallback_" ++ decimalStr c))

/-- `release_lock(lock_id, agent_id, idempotent)`.  `storeTime` is the store
clock (`redis.call('TIME')[1]`) used to stamp the successor's metadata.
The source guards the replace-only grant with a verify read and a re-queue
(lock_manager.py lines 309-315); within one atomic script the lock key read
at line 235 cannot lazily expire before the `SET .. XX` at line 307 (the
expiry clock is frozen for the duration of a script), so that guard never
fires and the grant is unconditional here.  The guard itself is modeled
separately as `releaseHandoffGrant`: were its trigger forced, the source
would abort on an out-of-scope variable instead of re-queueing. -/
def releaseLock (s : Store) (defaultTtl : Nat) (lockId : String)
    (agentId : Option String) (idempotent : Bool) (storeTime : Nat) :
    Store × ReleaseResult :=
  match s.meta lockId with
  | none =>
    if idempotent then (s, { status := "released" })
    else (s, { status := "error",
               message := some "Lock not found or already expired" })
  | some m =>
    let aArg := agentId.getD ""
    if aArg ≠ "" ∧ aArg ≠ m.agentId then
      (s, { status := "error",
            message := some "Permission denied: not lock owner" })
    else
      match s.lock m.lockKeyT m.lockKeyR with
      | none =>
        let s1 := { s with
          meta := upd1 s.meta lockId none
          agentLock := upd3 s.agentLock m.resourceType m.resourceId
            m.agentId none }
        if idempotent then (s1, { status := "released" })
        else (s1, { status := "error",
                    message := some "Lock expired before release" })
      | some cur =>
        if cur ≠ m.agentId then
          (s, { status := "error",
                message := some "Lock ownership changed during release" })
        else
          match handoffLoop 10 s m.lockKeyT m.lockKeyR
              m.resourceType m.resourceId with
          | (s1, some (n, _sc, nlid)) =>
            let s2 := { s1 with
              meta := upd1 s1.meta lockId none
              agentLock := upd3 s1.agentLock m.resourceType m.resourceId
                m.agentId none }
            (({ s2 with
                lock := upd2 s2.lock m.lockKeyT m.lockKeyR (some n)
                lockTtl := upd2 s2.lockTtl m.lockKeyT m.lockKeyR defaultTtl
                meta := upd1 s2.meta nlid (some
                  { lockKeyT := m.lockKeyT, lockKeyR := m.lockKeyR,
                    agentId := n, lockId := nlid,
                    acquiredAt := decimalStr storeTime,
                    resourceType := m.resourceType,
                    resourceId := m.resourceId })
                metaTtl := upd1 s2.metaTtl nlid defaultTtl
                agentLock := upd3 s2.agentLock m.resourceType m.resourceId
                  n (some nlid)
                agentLockTtl := upd3 s2.agentLockTtl m.resourceType
                  m.resourceId n defaultTtl
                published := s2.published ++
                  [(m.lockKeyT, m.lockKeyR, n, nlid)] } : Store),
             { status := "released", nextAgent := some n,
               nextLockId := some nlid })
          | (s1, none) =>
            (({ s1 with
                lock := upd2 s1.lock m.lockKeyT m.lockKeyR none
                meta := upd1 s1.meta lockId none
                agentLock := upd3 s1.agentLock m.resourceType m.resourceId
                  m.agentId none } : Store),
             { status := "released" })

/-- The grant step of the release handoff together with its expiry-race
guard (lock_manager.py lines 298-315), modeled on its own with the
counterfactual trigger `lockVanished`: the state in which the lock key's
TTL elapsed between the script's initial existence check (line 235) and
the replace-only `SET .. XX` (line 307).  Inside one atomic script this
cannot happen, and were it forced the source would not perform the
intended re-queue: the re-queue at line 313 reads `next_in_queue`, a
`local` of the for-loop body (line 264) that is out of scope after the
loop, and Redis's Lua sandbox aborts the script on reading an undeclared
global.  Effects already performed — the pops, the metadata and mapping
deletions — are kept, because Redis does not roll back a failed script,
so the popped agent is simply lost from the queue; `redis.eval` surfaces
the abort as a raised exception, so `release_lock` returns no result
dictionary at all, modeled as `Except.error`. -/
def releaseHandoffGrant (s1 : Store) (m : LockMeta) (lockId : String)
    (defaultTtl storeTime : Nat) (n nlid : String) (lockVanished : Bool) :
    Store × Except String ReleaseResult :=
  let s2 := { s1 with
    meta := upd1 s1.meta lockId none
    agentLock := upd3 s1.agentLock m.resourceType m.resourceId
      m.agentId none }
  if lockVanished then
    ({ s2 with lock := upd2 s2.lock m.lockKeyT m.lockKeyR none },
     Except.error
       "Script attempted to access nonexistent global variable next_in_queue")
  else
    (({ s2 with
        lock := upd2 s2.lock m.lockKeyT m.lockKeyR (some n)
        lockTtl := upd2 s2.lockTtl m.lockKeyT m.lockKeyR defaultTtl
        meta := upd1 s2.meta nlid (some
          { lockKeyT := m.lockKeyT, lockKeyR := m.lockKeyR,
            agentId := n, lockId := nlid,
            acquiredAt := decimalStr storeTime,
            resourceType := m.resourceType,
            resourceId := m.resourceId })
        metaTtl := upd1 s2.metaTtl nlid defaultTtl
        agentLock := upd3 s2.agentLock m.resourceType m.resourceId
          n (some nlid)
        agentLockTtl := upd3 s2.agentLockTtl m.resourceType
          m.resourceId n defaultTtl
        published := s2.published ++
          [(m.lockKeyT, m.lockKeyR, n, nlid)] } : Store),
     Except.ok { status := "released", nextAgent := some n,
                 nextLockId := some nlid })

/-! ### Cancel (`cancel_lock_request`, lock_manager.py lines 400-435) -/

/-- `cancel_lock_request(resource_type, resource_id, agent_id)`: `ZREM` the
agent from the queue and drop its `agent_lock` mapping, else set the 60-second
cancel tombstone.  The wrapper always reports status `cancelled`. -/
def cancelLockRequest (s : Store) (T R A : String) : Store × CancelResult :=
  if (zscore (s.queue T R) A).isSome then
    ({ s with
        queue := upd2 s.queue T R (zrem (s.queue T R) A)
        agentLock := upd3 s.agentLock T R A none },
     { status := "cancelled", detail := "removed_from_queue" })
  else
    ({ s with
        cancel := upd3 s.cancel T R A true
        cancelTtl := upd3 s.cancelTtl T R A 60 },
     { status := "cancelled", detail := "not_in_queue_flag_set" })

/-! ### Extend (`extend_lock`, lock_manager.py lines 437-520) -/

/-- `extend_lock(lock_id, additional_ttl, agent_id)`: verify metadata, owner
and current holder, then `EXPIRE` the lock key, the metadata hash and the
`agent_lock` mapping to `additional_ttl` (`EXPIRE` on a missing `agent_lock`
key is a no-op, unchecked by the script). -/
def extendLock (s : Store) (lockId : String) (additionalTtl : Nat)
    (agentId : Option String) : Store × ExtendResult :=
  match s.meta lockId with
  | none => (s, { status := "error", message := some "Lock not found" })
  | some m =>
    let aArg := agentId.getD ""
    if aArg ≠ "" ∧ aArg ≠ m.agentId then
      (s, { status := "error", message := some "Not lock owner" })
    else
      match s.lock m.lockKeyT m.lockKeyR with
      | none => (s, { status := "error", message := some "Lock expired" })
      | some cur =>
        if cur ≠ m.agentId then
          (s, { status := "error",
                message := some "Lock ownership changed" })
        else
          (({ s with
              lockTtl := upd2 s.lockTtl m.lockKeyT m.lockKeyR additionalTtl
              metaTtl := upd1 s.metaTtl lockId additionalTtl
              agentLockTtl :=
                if (s.agentLock m.resourceType m.resourceId
                    m.agentId).isSome then
                  upd3 s.agentLockTtl m.resourceType m.resourceId
                    m.agentId additionalTtl
                else s.agentLockTtl } : Store),
           { status := "extended", newTtl := some additionalTtl })

/-! ### Status (`check_lock_status`, lock_manager.py lines 372-391) -/

/-- `check_lock_status(lock_id)`: `expired` when the metadata hash is gone or
the lock key it references is gone; otherwise `active` with the metadata
fields.  The source only re-checks that the lock key exists — it never
compares the current holder with the metadata's `agent_id`. -/
def checkLockStatus (s : Store) (lockId : String) : StatusResult :=
  match s.meta lockId with
  | none => { status := "expired" }
  | some m =>
    match s.lock m.lockKeyT m.lockKeyR with
    | none => { status := "expired" }
    | some _ =>
      { status := "active", agentId := some m.agentId,
        acquiredAt := some m.acquiredAt,
        resourceType := some m.resourceType,
        resourceId := some m.resourceId }

/-! ### HTTP facade (`api/main.py`) -/

/-- Body fields of `AcquireLockRequest` (api/main.py lines 48-53). -/
def acquireEndpointFields : List String :=
  ["resource_type", "resource_id", "agent_id", "priority", "ttl"]

/-- Body fields of `ReleaseLockRequest` (api/main.py lines 56-58). -/
def releaseEndpointFields : List String := ["lock_id", "agent_id"]

/-- Body fields of `CancelLockRequest` (api/main.py lines 61-64). -/
def cancelEndpointFields : List String :=
  ["resource_type", "resource_id", "agent_id"]

/-- `POST /v1/locks/acquire`: forwards the five request fields and omits
`allow_reentrant`, which therefore keeps its engine default `False`. -/
def acquireEndpoint (s : Store) (defaultTtl : Nat) (T R A : String)
    (priority : Int) (ttl : Option Nat) (newLockId acquiredAt : String) :
    Store × AcquireResult :=
  acquireLock s defaultTtl T R A priority ttl newLockId acquiredAt false

/-- `POST /v1/locks/release`: forwards `lock_id` and `agent_id` and omits
`idempotent`, which therefore keeps its engine default `True`. -/
def releaseEndpoint (s : Store) (defaultTtl : Nat) (lockId : String)
    (agentId : Option String) (storeTime : Nat) :
    Store × ReleaseResult :=
  releaseLock s defaultTtl lockId agentId true storeTime

/-! ### Lemmas about the sorted-set model -/

theorem zbetter_iff {x y : String × Int} :
    zbetter x y = true ↔ (x.2 < y.2 ∨ (x.2 = y.2 ∧ x.1 < y.1)) := by
  simp [zbetter]

theorem zbetter_iff_lex {x y : String × Int} :
    zbetter x y = true ↔ toLex (x.2, x.1) < toLex (y.2, y.1) := by
  rw [zbetter_iff, Prod.Lex.lt_iff]

theorem zbetter_irrefl (x : String × Int) : zbetter x x = false := by
  simp [zbetter]

theorem zbetter_false_trans {x y z : String × Int}
    (h1 : zbetter x y = false) (h2 : zbetter y z = false) :
    zbetter x z = false := by
  rw [← Bool.not_eq_true, zbetter_iff_lex, not_lt] at h1 h2 ⊢
  exact h2.trans h1

theorem zbetter_of_ne {x y : String × Int} (hxy : x ≠ y)
    (h : zbetter x y = false) : zbetter y x = true := by
  rw [← Bool.not_eq_true, zbetter_iff_lex, not_lt] at h
  rw [zbetter_iff_lex]
  rcases lt_or_eq_of_le h with h1 | h1
  · exact h1
  · exfalso
    apply hxy
    have := toLex_inj.mp h1.symm
    exact Prod.ext (congrArg Prod.snd this) (congrArg Prod.fst this)

theorem zminEntry_mem {q : List (String × Int)} {m : String × Int}
    (h : zminEntry q = some m) : m ∈ q := by
  induction q generalizing m with
  | nil => simp [zminEntry] at h
  | cons x xs ih =>
    rw [zminEntry] at h
    cases hx : zminEntry xs with
    | none => rw [hx] at h; simp at h; simp [h]
    | some m0 =>
      rw [hx] at h
      simp only [Option.some.injEq] at h
      by_cases hb : zbetter m0 x = true
      · rw [if_pos hb] at h
        exact List.mem_cons_of_mem x (h ▸ ih hx)
      · rw [if_neg hb] at h
        simp [← h]

theorem zminEntry_min {q : List (String × Int)} {m : String × Int}
    (h : zminEntry q = some m) : ∀ x ∈ q, zbetter x m = false := by
  induction q generalizing m with
  | nil => simp [zminEntry] at h
  | cons x xs ih =>
    rw [zminEntry] at h
    cases hx : zminEntry xs with
    | none =>
      rw [hx] at h
      simp only [Option.some.injEq] at h
      subst h
      cases xs with
      | nil => intro y hy; simp at hy; subst hy; exact zbetter_irrefl y
      | cons z zs => cases hzs : zminEntry zs <;> simp [zminEntry, hzs] at hx
    | some m0 =>
      rw [hx] at h
      simp only [Option.some.injEq] at h
      intro y hy
      rcases List.mem_cons.mp hy with hy | hy
      · subst hy
        by_cases hb : zbetter m0 y = true
        · rw [if_pos hb] at h
          subst h
          rw [← Bool.not_eq_true, zbetter_iff_lex, not_lt]
          rw [zbetter_iff_lex] at hb
          exact le_of_lt hb
        · rw [if_neg hb] at h
          subst h
          exact zbetter_irrefl y
      · have hym0 : zbetter y m0 = false := ih hx y hy
        by_cases hb : zbetter m0 x = true
        · rw [if_pos hb] at h
          subst h
          exact hym0
        · rw [if_neg hb] at h
          subst h
          exact zbetter_false_trans hym0
            (Bool.not_eq_true _ ▸ fun hc => hb hc)

theorem zminEntry_none_iff {q : List (String × Int)} :
    zminEntry q = none ↔ q = [] := by
  cases q with
  | nil => simp [zminEntry]
  | cons x xs =>
    simp only [zminEntry]
    cases zminEntry xs <;> simp

theorem zadd_self_mem (q : List (String × Int)) (a : String) (sc : Int) :
    (a, sc) ∈ zadd q a sc := by
  induction q with
  | nil => simp [zadd]
  | cons x xs ih =>
    rw [zadd]
    by_cases hb : x.1 = a
    · rw [if_pos hb]; simp
    · rw [if_neg hb]; exact List.mem_cons_of_mem _ ih

theorem zscore_zrem (q : List (String × Int)) (a : String) :
    zscore (zrem q a) a = none := by
  induction q with
  | nil => simp [zrem, zscore]
  | cons x xs ih =>
    by_cases hb : x.1 = a
    · simpa [zrem, List.filter_cons, hb] using ih
    · simp only [zrem, List.filter_cons] at ih ⊢
      rw [if_pos (by simp [hb])]
      rw [zscore, if_neg hb]
      exact ih

theorem zscore_isSome_of_mem {q : List (String × Int)} {x : String × Int}
    (h : x ∈ q) : (zscore q x.1).isSome = true := by
  induction q with
  | nil => simp at h
  | cons y ys ih =>
    rw [zscore]
    by_cases hb : y.1 = x.1
    · rw [if_pos hb]; rfl
    · rcases List.mem_cons.mp h with h | h
      · exact absurd (congrArg Prod.fst h.symm) hb
      · rw [if_neg hb]; exact ih h

/-! ### Lemmas about the handoff loop -/

theorem handoffLoop_spec (fuel : Nat) (T R RT RI : String) : ∀ s : Store,
    (handoffLoop fuel s T R RT RI).1.lock = s.lock ∧
    (∀ T1 R1 A1, (handoffLoop fuel s T R RT RI).1.cancel T1 R1 A1 = true →
      s.cancel T1 R1 A1 = true) ∧
    (∀ s1 n sc lid, handoffLoop fuel s T R RT RI = (s1, some (n, sc, lid)) →
      s1.cancel RT RI n = false) := by
  induction fuel with
  | zero =>
    intro s
    refine ⟨rfl, fun _ _ _ h => h, fun s1 n sc lid h => ?_⟩
    simp [handoffLoop] at h
  | succ f ih =>
    intro s
    rw [handoffLoop]
    cases hq : zpopmin (s.queue T R) with
    | none =>
      refine ⟨rfl, fun _ _ _ h => h, fun s1 n sc lid h => ?_⟩
      simp at h
    | some p =>
      obtain ⟨⟨a, sc0⟩, rest⟩ := p
      dsimp only
      by_cases hc : s.cancel RT RI a = true
      · rw [if_pos hc]
        obtain ⟨ihl, ihc, ihf⟩ := ih
          { s with
              queue := upd2 s.queue T R rest
              cancel := upd3 s.cancel RT RI a false
              agentLock := upd3 s.agentLock RT RI a none }
        refine ⟨ihl, fun T1 R1 A1 h => ?_, ihf⟩
        have := ihc T1 R1 A1 h
        dsimp only [upd3] at this
        by_cases hk : T1 = RT ∧ R1 = RI ∧ A1 = a
        · rw [if_pos hk] at this; exact absurd this (by simp)
        · rwa [if_neg hk] at this
      · rw [if_neg hc]
        cases hal : s.agentLock RT RI a with
        | some lid0 =>
          refine ⟨rfl, fun _ _ _ h => h, fun s1 n sc lid h => ?_⟩
          simp only [Prod.mk.injEq, Option.some.injEq] at h
          obtain ⟨hs1, hn, _, _⟩ := h
          subst hs1 hn
          simpa using Bool.not_eq_true _ ▸ hc
        | none =>
          refine ⟨rfl, fun _ _ _ h => h, fun s1 n sc lid h => ?_⟩
          simp only [Prod.mk.injEq, Option.some.injEq] at h
          obtain ⟨hs1, hn, _, _⟩ := h
          subst hs1 hn
          simpa using Bool.not_eq_true _ ▸ hc

/-! ### The cancel-flag invariant (spec invariant 4) -/

/-- If `cancel:T:R:A` exists then `A` is not the current holder of
`lock:T:R`. -/
def cancelInv (s : Store) : Prop :=
  ∀ T R A, s.cancel T R A = true → s.lock T R ≠ some A

/-- Setting one cancel flag to `false` only ever removes flags. -/
theorem upd3_false_mono {f : String → String → String → Bool}
    {k1 k2 k3 T R A : String} (h : upd3 f k1 k2 k3 false T R A = true) :
    f T R A = true := by
  dsimp only [upd3] at h
  by_cases hk : T = k1 ∧ R = k2 ∧ A = k3
  · rw [if_pos hk] at h; cases h
  · rwa [if_neg hk] at h

theorem acquireMain_cancelInv {s : Store} {T R A : String} {prio : Int}
    {t : Nat} {nid iso : String} (hinv : cancelInv s)
    (hflag : s.cancel T R A = false) :
    cancelInv (acquireMain s T R A prio t nid iso).1 := by
  unfold acquireMain
  split
  · rename_i hl
    intro T1 R1 A1 h
    dsimp only at h ⊢
    dsimp only [upd2]
    by_cases hk : T1 = T ∧ R1 = R
    · rw [if_pos hk]
      intro hc
      obtain ⟨hk1, hk2⟩ := hk
      have hA : A = A1 := by simpa using hc
      subst hk1 hk2 hA
      exact absurd h (by simp [hflag])
    · rw [if_neg hk]
      exact hinv T1 R1 A1 h
  · rename_i hl
    split
    · intro T1 R1 A1 h
      exact hinv T1 R1 A1 h
    · intro T1 R1 A1 h
      exact hinv T1 R1 A1 h

theorem acquireLock_cancelInv {s : Store} {dflt : Nat} {T R A : String}
    {prio : Int} {ttl : Option Nat} {nid iso : String} {re : Bool}
    (hinv : cancelInv s) :
    cancelInv (acquireLock s dflt T R A prio ttl nid iso re).1 := by
  unfold acquireLock
  dsimp only
  split
  · intro T1 R1 A1 h
    dsimp only at h
    exact hinv T1 R1 A1 (upd3_false_mono h)
  · rename_i hflag
    rw [Bool.not_eq_true] at hflag
    split
    · split
      · split
        · intro T1 R1 A1 h
          exact hinv T1 R1 A1 h
        · exact acquireMain_cancelInv hinv hflag
      · intro T1 R1 A1 h
        exact hinv T1 R1 A1 h
    · exact acquireMain_cancelInv hinv hflag

theorem releaseLock_cancelInv {s : Store} {dflt : Nat} {L : String}
    {aid : Option String} {idem : Bool} {tm : Nat}
    (hinv : cancelInv s)
    (hwf : ∀ m, s.meta L = some m →
      m.lockKeyT = m.resourceType ∧ m.lockKeyR = m.resourceId) :
    cancelInv (releaseLock s dflt L aid idem tm).1 := by
  unfold releaseLock
  split
  · split
    · exact hinv
    · exact hinv
  · rename_i m hm
    obtain ⟨hT, hR⟩ := hwf m hm
    dsimp only
    split
    · exact hinv
    · split
      · split
        · intro T1 R1 A1 h
          dsimp only at h ⊢
          exact hinv T1 R1 A1 h
        · intro T1 R1 A1 h
          dsimp only at h ⊢
          exact hinv T1 R1 A1 h
      · rename_i cur hl
        split
        · exact hinv
        · rename_i hcur
          obtain ⟨lockeq, cmono, cfound⟩ :=
            handoffLoop_spec 10 m.lockKeyT m.lockKeyR m.resourceType
              m.resourceId s
          split
          · rename_i s1 n sc nlid hho
            rw [hho] at lockeq cmono
            have hnc : s1.cancel m.resourceType m.resourceId n = false :=
              cfound s1 n sc nlid hho
            intro T1 R1 A1 h
            dsimp only at h ⊢
            dsimp only [upd2]
            by_cases hk : T1 = m.lockKeyT ∧ R1 = m.lockKeyR
            · rw [if_pos hk]
              intro hc
              have hn : n = A1 := by simpa using hc
              obtain ⟨hk1, hk2⟩ := hk
              subst hk1 hk2 hn
              rw [hT, hR] at h
              exact absurd h (by simp [hnc])
            · rw [if_neg hk]
              exact lockeq ▸ hinv T1 R1 A1 (cmono T1 R1 A1 h)
          · rename_i s1 hho
            rw [hho] at lockeq cmono
            intro T1 R1 A1 h
            dsimp only at h ⊢
            dsimp only [upd2]
            by_cases hk : T1 = m.lockKeyT ∧ R1 = m.lockKeyR
            · rw [if_pos hk]; simp
            · rw [if_neg hk]
              exact lockeq ▸ hinv T1 R1 A1 (cmono T1 R1 A1 h)

theorem extendLock_cancelInv {s : Store} {L : String} {t : Nat}
    {aid : Option String} (hinv : cancelInv s) :
    cancelInv (extendLock s L t aid).1 := by
  unfold extendLock
  split
  · exact hinv
  · dsimp only
    split
    · exact hinv
    · split
      · exact hinv
      · split
        · exact hinv
        · intro T1 R1 A1 h
          exact hinv T1 R1 A1 h

theorem cancelLockRequest_cancelInv {s : Store} {T R A : String}
    (hinv : cancelInv s) (hnotholder : s.lock T R ≠ some A) :
    cancelInv (cancelLockRequest s T R A).1 := by
  unfold cancelLockRequest
  split
  · intro T1 R1 A1 h
    exact hinv T1 R1 A1 h
  · intro T1 R1 A1 h
    dsimp only at h ⊢
    dsimp only [upd3] at h
    by_cases hk : T1 = T ∧ R1 = R ∧ A1 = A
    · obtain ⟨hk1, hk2, hk3⟩ := hk
      subst hk1 hk2 hk3
      exact hnotholder
    · rw [if_neg hk] at h
      exact hinv T1 R1 A1 h

/-- When the best queued agent has no pending cancel flag, the handoff loop
stops at its first pop: it returns that agent with its original score, the
queue with that entry removed, and everything else (except possibly the
fallback counter) untouched; when the agent's pending mapping exists, the
resolved next lock id is exactly the stored one. -/
theorem handoffLoop_first_valid {s : Store} {T R RT RI N : String} {sc : Int}
    (hmin : zminEntry (s.queue T R) = some (N, sc))
    (hnc : s.cancel RT RI N = false) :
    ∃ s1 nlid, handoffLoop 10 s T R RT RI = (s1, some (N, sc, nlid)) ∧
      s1.queue = upd2 s.queue T R ((s.queue T R).erase (N, sc)) ∧
      s1.lock = s.lock ∧ s1.meta = s.meta ∧ s1.metaTtl = s.metaTtl ∧
      s1.agentLock = s.agentLock ∧ s1.agentLockTtl = s.agentLockTtl ∧
      s1.cancel = s.cancel ∧ s1.lockTtl = s.lockTtl ∧
      (∀ L1, s.agentLock RT RI N = some L1 → nlid = L1) := by
  rw [show (10 : Nat) = 9 + 1 from rfl, handoffLoop, zpopmin, hmin]
  dsimp only
  rw [hnc]
  simp only [Bool.false_eq_true, if_false]
  cases hal : s.agentLock RT RI N with
  | some lid =>
    refine ⟨_, lid, rfl, rfl, rfl, rfl, rfl, rfl, rfl, rfl, rfl, ?_⟩
    intro L1 h1
    exact Option.some.inj h1
  | none =>
    refine ⟨_, _, rfl, rfl, rfl, rfl, rfl, rfl, rfl, rfl, rfl, ?_⟩
    intro L1 h1
    exact absurd h1 (by simp)

/-- C2 — Priority handoff order: a release that performs a handoff on a
non-empty queue in which no queued agent has a pending cancel flag grants to
the queued agent with the minimum stored score (score = -priority, so the
highest priority), ties broken lexicographically on the agent id. -/
theorem spec_release_priority_order
    (s : Store) (dflt : Nat) (L : String) (aid : Option String) (idem : Bool)
    (tm : Nat) (m : LockMeta) (N : String) (sc : Int)
    (hm : s.meta L = some m)
    (hguard : aid.getD "" = "" ∨ aid.getD "" = m.agentId)
    (hl : s.lock m.lockKeyT m.lockKeyR = some m.agentId)
    (hmin : zminEntry (s.queue m.lockKeyT m.lockKeyR) = some (N, sc))
    (hnc : ∀ x ∈ s.queue m.lockKeyT m.lockKeyR,
      s.cancel m.resourceType m.resourceId x.1 = false) :
    (releaseLock s dflt L aid idem tm).2.status = "released" ∧
    (releaseLock s dflt L aid idem tm).2.nextAgent = some N ∧
    (N, sc) ∈ s.queue m.lockKeyT m.lockKeyR ∧
    (∀ x ∈ s.queue m.lockKeyT m.lockKeyR, x ≠ (N, sc) →
      sc < x.2 ∨ (sc = x.2 ∧ N < x.1)) := by
  have hmem : (N, sc) ∈ s.queue m.lockKeyT m.lockKeyR := zminEntry_mem hmin
  have hncN : s.cancel m.resourceType m.resourceId N = false := hnc _ hmem
  obtain ⟨s1, nlid, hloop, -⟩ := handoffLoop_first_valid hmin hncN
  have hguard2 : ¬(aid.getD "" ≠ "" ∧ aid.getD "" ≠ m.agentId) := by
    rcases hguard with h | h <;> simp [h]
  refine ⟨?_, ?_, hmem, ?_⟩
  · unfold releaseLock
    rw [hm]
    dsimp only
    rw [if_neg hguard2, hl]
    dsimp only
    rw [if_neg (by simp), hloop]
  · unfold releaseLock
    rw [hm]
    dsimp only
    rw [if_neg hguard2, hl]
    dsimp only
    rw [if_neg (by simp), hloop]
  · intro x hx hne
    have hxm : zbetter x (N, sc) = false := zminEntry_min hmin x hx
    have := zbetter_iff.mp (zbetter_of_ne hne hxm)
    simpa using this

theorem upd1_same {α : Type} (f : String → α) (k : String) (v : α) :
    upd1 f k v k = v := by simp [upd1]

theorem upd2_same {α : Type} (f : String → String → α) (k1 k2 : String)
    (v : α) : upd2 f k1 k2 v k1 k2 = v := by simp [upd2]

theorem upd3_same {α : Type} (f : String → String → String → α)
    (k1 k2 k3 : String) (v : α) : upd3 f k1 k2 k3 v k1 k2 k3 = v := by
  simp [upd3]

/-! ### Concrete fixtures used by witnesses and counterexamples -/

/-- Metadata of a lock `L` held by agent `A` on resource `(t, r)`. -/
def metaL : LockMeta :=
  { lockKeyT := "t", lockKeyR := "r", agentId := "A", lockId := "L",
    acquiredAt := "2026-01-01T00:00:00", resourceType := "t",
    resourceId := "r" }

/-- Agent `A` holds lock `L` on `(t, r)`; empty queue, no flags. -/
def storeHeldA : Store :=
  { emptyStore with
      lock := upd2 emptyStore.lock "t" "r" (some "A")
      lockTtl := upd2 emptyStore.lockTtl "t" "r" 300
      meta := upd1 emptyStore.meta "L" (some metaL)
      metaTtl := upd1 emptyStore.metaTtl "L" 300
      agentLock := upd3 emptyStore.agentLock "t" "r" "A" (some "L")
      agentLockTtl := upd3 emptyStore.agentLockTtl "t" "r" "A" 300 }

/-- As `storeHeldA`, with waiters `B` (priority 5) and `C` (priority 10)
queued with their pending lock ids. -/
def storeHeldQ : Store :=
  { storeHeldA with
      queue := upd2 storeHeldA.queue "t" "r" [("B", -5), ("C", -10)]
      agentLock := upd3 (upd3 storeHeldA.agentLock "t" "r" "B" (some "LB"))
        "t" "r" "C" (some "LC")
      agentLockTtl := upd3 (upd3 storeHeldA.agentLockTtl "t" "r" "B" 3600)
        "t" "r" "C" 3600 }

/-- As `storeHeldA`, with a pending cancel flag for the holder `A`. -/
def storeHeldCancel : Store :=
  { storeHeldA with cancel := upd3 storeHeldA.cancel "t" "r" "A" true }

/-- As `storeHeldA`, with the holder's `agent_lock` mapping missing. -/
def storeHeldNoMap : Store :=
  { storeHeldA with agentLock := upd3 storeHeldA.agentLock "t" "r" "A" none }

/-- As `storeHeldA`, after the lock key was re-created for a different
agent `B` while the metadata hash of `L` (naming `A`) still exists. -/
def storeMismatch : Store :=
  { storeHeldA with lock := upd2 storeHeldA.lock "t" "r" (some "B") }

/-! ### C7 — cancel-flag invariant -/

/-- C7 counterexample: the claim includes a cancel issued by an agent that
currently holds the lock.  From a state satisfying the invariant in which
`A` holds `lock:t:r` and is not queued, `cancel(t, r, A)` takes the
flag-setting branch, so afterwards `cancel:t:r:A` exists while `A` is still
the holder — the invariant does not survive that operation. -/
theorem spec_cancel_flag_invariant_counterexample :
    cancelInv storeHeldA ∧
    (cancelLockRequest storeHeldA "t" "r" "A").2.status = "cancelled" ∧
    (cancelLockRequest storeHeldA "t" "r" "A").1.cancel "t" "r" "A" = true ∧
    (cancelLockRequest storeHeldA "t" "r" "A").1.lock "t" "r" = some "A" := by
  refine ⟨?_, by decide, by decide, by decide⟩
  intro T R A h
  simp [storeHeldA, emptyStore] at h

/-- C7 (amended) — Cancel-flag invariant: from any state in which no cancel
flag names the current holder (and whose lock metadata is internally
consistent), the invariant `cancel:T:R:A exists → A is not the holder of
lock:T:R` is preserved by any single atomic acquire, release, or extend, and
by any cancel issued by an agent that is not the current holder of the
resource it cancels on.  (A cancel issued by the current holder sets the
flag while that agent keeps the lock, so it is excluded.) -/
theorem spec_cancel_flag_invariant_amended (s : Store) (hinv : cancelInv s)
    (hwf : ∀ L m, s.meta L = some m →
      m.lockKeyT = m.resourceType ∧ m.lockKeyR = m.resourceId) :
    (∀ dflt T R A prio ttl nid iso re,
      cancelInv (acquireLock s dflt T R A prio ttl nid iso re).1) ∧
    (∀ dflt L aid idem tm,
      cancelInv (releaseLock s dflt L aid idem tm).1) ∧
    (∀ L t aid, cancelInv (extendLock s L t aid).1) ∧
    (∀ T R A, s.lock T R ≠ some A →
      cancelInv (cancelLockRequest s T R A).1) :=
  ⟨fun _ _ _ _ _ _ _ _ _ => acquireLock_cancelInv hinv,
   fun _ L _ _ _ => releaseLock_cancelInv hinv (fun m hm => hwf L m hm),
   fun _ _ _ => extendLock_cancelInv hinv,
   fun _ _ _ h => cancelLockRequest_cancelInv hinv h⟩

theorem spec_cancel_flag_invariant_amended_witness :
    cancelInv (cancelLockRequest emptyStore "t" "r" "B").1 := by
  have h := spec_cancel_flag_invariant_amended emptyStore
    (by intro T R A h; simp [emptyStore] at h)
    (by intro L m h; simp [emptyStore] at h)
  exact h.2.2.2 "t" "r" "B" (by simp [emptyStore])

/-! ### C3 — re-entrancy -/

/-- C3 counterexample: an acquire with `reentrant=true` executed while `A`
is the current value of `lock:t:r` does not always return `already_owned`
with the original lock id — with a pending cancel flag for `A` the result is
`cancelled`, and with the `agent_lock` mapping missing the script falls
through past the failing `SET NX` and returns `queued` (queueing the holder
behind itself). -/
theorem spec_reentrancy_counterexample :
    storeHeldCancel.lock "t" "r" = some "A" ∧
    (acquireLock storeHeldCancel 300 "t" "r" "A" 5 none "N1" "iso"
      true).2.status = "cancelled" ∧
    storeHeldNoMap.lock "t" "r" = some "A" ∧
    (acquireLock storeHeldNoMap 300 "t" "r" "A" 5 none "N1" "iso"
      true).2.status = "queued" := by decide

/-- C3 (amended) — Reentrancy: a `reentrant=true` acquire by the current
holder `A` that has no pending cancel flag and whose `agent_lock:T:R:A`
mapping (holding the originally granted lock id `L0`) is present returns
`already_owned` with that same stored lock id — never the freshly minted
one and never a queued result — and refreshes the TTLs of the lock key, of
`L0`'s metadata hash, and of the `agent_lock` mapping to the requested
TTL. -/
theorem spec_reentrancy_amended
    (s : Store) (dflt : Nat) (T R A : String) (prio : Int) (ttl : Option Nat)
    (nid iso L0 : String) (m : LockMeta)
    (hc : s.cancel T R A = false)
    (hl : s.lock T R = some A)
    (hal : s.agentLock T R A = some L0)
    (hm : s.meta L0 = some m) :
    (acquireLock s dflt T R A prio ttl nid iso true).2 =
      { status := "already_owned", lockId := some L0,
        expiresIn := some (effectiveTtl dflt ttl), extended := true } ∧
    (acquireLock s dflt T R A prio ttl nid iso true).1.lock T R = some A ∧
    (acquireLock s dflt T R A prio ttl nid iso true).1.agentLock T R A =
      some L0 ∧
    (acquireLock s dflt T R A prio ttl nid iso true).1.lockTtl T R =
      effectiveTtl dflt ttl ∧
    (acquireLock s dflt T R A prio ttl nid iso true).1.metaTtl L0 =
      effectiveTtl dflt ttl ∧
    (acquireLock s dflt T R A prio ttl nid iso true).1.agentLockTtl T R A =
      effectiveTtl dflt ttl := by
  have hred : acquireLock s dflt T R A prio ttl nid iso true =
      (({ s with
          lockTtl := upd2 s.lockTtl T R (effectiveTtl dflt ttl)
          metaTtl := if (s.meta L0).isSome
                     then upd1 s.metaTtl L0 (effectiveTtl dflt ttl)
                     else s.metaTtl
          agentLockTtl := upd3 s.agentLockTtl T R A
            (effectiveTtl dflt ttl) } : Store),
       { status := "already_owned", lockId := some L0,
         expiresIn := some (effectiveTtl dflt ttl), extended := true }) := by
    unfold acquireLock
    dsimp only
    rw [hc, hal, if_pos hl, if_neg (show ¬(false = true) by simp),
      if_pos (rfl : (true : Bool) = true)]
  rw [hred]
  refine ⟨rfl, hl, hal, upd2_same _ _ _ _, ?_, upd3_same _ _ _ _ _⟩
  dsimp only
  rw [if_pos (by simp [hm]), upd1_same]

theorem spec_reentrancy_amended_witness :
    (acquireLock storeHeldA 300 "t" "r" "A" 5 none "N1" "iso" true).2 =
      { status := "already_owned", lockId := some "L",
        expiresIn := some 300, extended := true } :=
  (spec_reentrancy_amended storeHeldA 300 "t" "r" "A" 5 none "N1" "iso" "L"
    metaL (by decide) (by decide) (by decide) (by decide)).1

/-! ### C4 — cancel behaviour -/

/-- Both branches of the cancel script report status `cancelled`. -/
theorem cancelLockRequest_status (s : Store) (T R A : String) :
    (cancelLockRequest s T R A).2.status = "cancelled" := by
  unfold cancelLockRequest
  split <;> rfl

/-- C4 counterexample: for an agent that is not queued, the surfaced detail
string is `not_in_queue_flag_set`, not `flag_set` as the claim states. -/
theorem spec_cancel_detail_counterexample :
    (cancelLockRequest storeHeldA "t" "r" "B").2.status = "cancelled" ∧
    (cancelLockRequest storeHeldA "t" "r" "B").2.detail =
      "not_in_queue_flag_set" ∧
    (cancelLockRequest storeHeldA "t" "r" "B").2.detail ≠ "flag_set" := by
  decide

/-- C4 (amended) — Cancel behaviour and idempotence: if `A` is queued it is
removed and its `agent_lock` mapping deleted with detail
`removed_from_queue`; otherwise `cancel:T:R:A` is set to the flag with a
60-second TTL and the detail is `not_in_queue_flag_set`; in both cases the
status is `cancelled`, and repeating the call reports `cancelled` again. -/
theorem spec_cancel_behaviour_amended (s : Store) (T R A : String) :
    (cancelLockRequest s T R A).2.status = "cancelled" ∧
    ((zscore (s.queue T R) A).isSome = true →
      (cancelLockRequest s T R A).2.detail = "removed_from_queue" ∧
      zscore ((cancelLockRequest s T R A).1.queue T R) A = none ∧
      (cancelLockRequest s T R A).1.agentLock T R A = none) ∧
    ((zscore (s.queue T R) A).isSome = false →
      (cancelLockRequest s T R A).2.detail = "not_in_queue_flag_set" ∧
      (cancelLockRequest s T R A).1.cancel T R A = true ∧
      (cancelLockRequest s T R A).1.cancelTtl T R A = 60) ∧
    (cancelLockRequest (cancelLockRequest s T R A).1 T R A).2.status =
      "cancelled" := by
  refine ⟨cancelLockRequest_status s T R A, ?_, ?_,
    cancelLockRequest_status _ T R A⟩
  · intro hz
    unfold cancelLockRequest
    rw [if_pos hz]
    refine ⟨rfl, ?_, ?_⟩
    · dsimp only
      rw [upd2_same]
      exact zscore_zrem _ A
    · dsimp only
      rw [upd3_same]
  · intro hz
    unfold cancelLockRequest
    rw [if_neg (by simp [hz])]
    exact ⟨rfl, by dsimp only; rw [upd3_same],
      by dsimp only; rw [upd3_same]⟩

theorem spec_cancel_behaviour_amended_witness :
    (cancelLockRequest storeHeldQ "t" "r" "B").2.status = "cancelled" ∧
    (cancelLockRequest storeHeldQ "t" "r" "B").2.detail =
      "removed_from_queue" ∧
    zscore ((cancelLockRequest storeHeldQ "t" "r" "B").1.queue "t" "r") "B" =
      none ∧
    (cancelLockRequest storeHeldQ "t" "r" "B").1.agentLock "t" "r" "B" =
      none := by
  have h := spec_cancel_behaviour_amended storeHeldQ "t" "r" "B"
  have h2 := h.2.1 (by decide)
  exact ⟨h.1, h2.1, h2.2.1, h2.2.2⟩

/-! ### C5 — status result -/

/-- C5 counterexample: the claim says status returns `expired` when the
lock key holds an agent different from the metadata's `agent_id`.  In the
state where metadata of `L` names `A` but `lock:t:r` holds `B`, the source
returns `active` (and surfaces `A`'s stale metadata): the holder comparison
is never performed. -/
theorem spec_status_counterexample :
    storeMismatch.meta "L" = some metaL ∧
    metaL.agentId = "A" ∧
    storeMismatch.lock "t" "r" = some "B" ∧
    checkLockStatus storeMismatch "L" =
      { status := "active", agentId := some "A",
        acquiredAt := some "2026-01-01T00:00:00",
        resourceType := some "t", resourceId := some "r" } := by decide

/-- C5 (amended) — Status result: `check_lock_status(L)` returns `expired`
when the metadata hash for `L` is absent, or when the lock key referenced by
the metadata is absent; otherwise — regardless of whether the lock key's
current holder matches the metadata's `agent_id` — it returns `active`
together with the stored metadata fields. -/
theorem spec_status_amended (s : Store) (L : String) :
    (s.meta L = none → checkLockStatus s L = { status := "expired" }) ∧
    (∀ m, s.meta L = some m → s.lock m.lockKeyT m.lockKeyR = none →
      checkLockStatus s L = { status := "expired" }) ∧
    (∀ m o, s.meta L = some m → s.lock m.lockKeyT m.lockKeyR = some o →
      checkLockStatus s L =
        { status := "active", agentId := some m.agentId,
          acquiredAt := some m.acquiredAt,
          resourceType := some m.resourceType,
          resourceId := some m.resourceId }) := by
  refine ⟨?_, ?_, ?_⟩
  · intro hm
    unfold checkLockStatus
    rw [hm]
  · intro m hm hl
    unfold checkLockStatus
    rw [hm]
    dsimp only
    rw [hl]
  · intro m o hm hl
    unfold checkLockStatus
    rw [hm]
    dsimp only
    rw [hl]

theorem spec_status_amended_witness :
    checkLockStatus storeMismatch "L" =
      { status := "active", agentId := some "A",
        acquiredAt := some "2026-01-01T00:00:00",
        resourceType := some "t", resourceId := some "r" } :=
  (spec_status_amended storeMismatch "L").2.2 metaL "B" (by decide)
    (by decide)

theorem spec_release_priority_order_witness :
    (releaseLock storeHeldQ 300 "L" none true 0).2.status =
      "released" ∧
    (releaseLock storeHeldQ 300 "L" none true 0).2.nextAgent =
      some "C" := by
  have h := spec_release_priority_order storeHeldQ 300 "L" none true 0 metaL
    "C" (-10) (by decide) (Or.inl rfl) (by decide) (by decide) (by decide)
  exact ⟨h.1, h.2.1⟩

/-- The state of `storeHeldQ` after the handoff loop has popped the best
waiter `C`: the queue reduced to `B`, everything else untouched. -/
def storePostPop : Store :=
  { storeHeldQ with queue := upd2 storeHeldQ.queue "t" "r" [("B", -5)] }

/-- C6 — Expiry-race handling in release: the claim matches the spec and
the source's own comment at lock_manager.py line 312 (re-queue the agent,
treat as clean release), but the code is the slip.  At the concrete failing
input — the loop has popped `C` (score -10, pending lock id `LC`) from
`storeHeldQ` and the lock key vanished before the replace-only write — the
re-queue statement at line 313 reads the for-loop-local `next_in_queue`
after the loop has closed, so the script aborts with a Lua scoping error:
`C` is not re-added to the queue, the lock stays free, and no `released`
result is produced at all — not a clean release with no exception. -/
theorem spec_release_expiry_race_bug :
    (handoffLoop 10 storeHeldQ "t" "r" "t" "r").2 =
      some ("C", -10, "LC") ∧
    (handoffLoop 10 storeHeldQ "t" "r" "t" "r").1.queue "t" "r" =
      [("B", -5)] ∧
    (releaseHandoffGrant storePostPop metaL "L" 300 0 "C" "LC" true).2 =
      Except.error
        "Script attempted to access nonexistent global variable next_in_queue" ∧
    zscore ((releaseHandoffGrant storePostPop metaL "L" 300 0 "C" "LC"
      true).1.queue "t" "r") "C" = none ∧
    (releaseHandoffGrant storePostPop metaL "L" 300 0 "C" "LC"
      true).1.lock "t" "r" = none :=
  ⟨by decide, by decide, rfl, by decide, by decide⟩

/-! ### C8 — lock-id format and capability -/

/-- The shape of a `str(uuid.uuid4())` value: 36 characters with hyphens at
offsets 8, 13, 18 and 23. -/
def isUuidShaped (sid : String) : Bool :=
  sid.length == 36 && sid.data.getD 8 ' ' == '-' &&
  sid.data.getD 13 ' ' == '-' && sid.data.getD 18 ' ' == '-' &&
  sid.data.getD 23 ' ' == '-'

/-- As `storeHeldA`, with a waiter `B` queued whose pending `agent_lock`
mapping is absent (e.g. its bounded TTL elapsed while waiting). -/
def storeFallbackQ : Store :=
  { storeHeldA with queue := upd2 storeHeldA.queue "t" "r" [("B", -5)] }

/-- C8 counterexample: when the popped waiter's `agent_lock` mapping is
gone, the release handoff surfaces `next_lock_id = "fallback_1"` — a value
minted during release from the `lock_id_counter` key, not a 128-bit UUID
minted at acquire time. -/
theorem spec_lock_id_counterexample :
    storeFallbackQ.agentLock "t" "r" "B" = none ∧
    (releaseLock storeFallbackQ 300 "L" none true 0).2.nextAgent =
      some "B" ∧
    (releaseLock storeFallbackQ 300 "L" none true 0).2.nextLockId =
      some "fallback_1" ∧
    isUuidShaped "fallback_1" = false := by decide

/-- Some non-reentrant acquire never reports `already_owned`. -/
theorem acquireMain_status (s : Store) (T R A : String) (prio : Int)
    (t : Nat) (nid iso : String) :
    (acquireMain s T R A prio t nid iso).2.status = "acquired" ∨
    (acquireMain s T R A prio t nid iso).2.status = "queued" := by
  unfold acquireMain
  split
  · exact Or.inl rfl
  · split
    · exact Or.inr rfl
    · exact Or.inr rfl

/-- C8 (amended) — Lock-id provenance and capability: ids surfaced on
`acquired` and `queued` results are exactly the uuid4 value minted by the
wrapper for that acquire; a release handoff surfaces the waiter's stored
pending lock id whenever the `agent_lock` mapping survives (and only mints
a `fallback_<counter>` id during release when it is gone); and the lock id
alone — with `agent_id` omitted — is sufficient capability to release and
to extend. -/
theorem spec_lock_id_amended :
    (∀ (s : Store) (dflt : Nat) (T R A : String) (prio : Int)
      (ttl : Option Nat) (nid iso : String),
      s.cancel T R A = false → s.lock T R = none →
      (acquireLock s dflt T R A prio ttl nid iso false).2.status =
        "acquired" ∧
      (acquireLock s dflt T R A prio ttl nid iso false).2.lockId =
        some nid) ∧
    (∀ (s : Store) (dflt : Nat) (T R A : String) (prio : Int)
      (ttl : Option Nat) (nid iso : String) (re : Bool) (o : String),
      s.cancel T R A = false → s.lock T R = some o → o ≠ A →
      (acquireLock s dflt T R A prio ttl nid iso re).2.status =
        "queued" ∧
      (acquireLock s dflt T R A prio ttl nid iso re).2.lockId =
        some nid) ∧
    (∀ (s : Store) (dflt : Nat) (L : String) (tm : Nat) (m : LockMeta)
      (N L1 : String) (sc : Int),
      s.meta L = some m →
      s.lock m.lockKeyT m.lockKeyR = some m.agentId →
      zminEntry (s.queue m.lockKeyT m.lockKeyR) = some (N, sc) →
      s.cancel m.resourceType m.resourceId N = false →
      s.agentLock m.resourceType m.resourceId N = some L1 →
      (releaseLock s dflt L none true tm).2.status = "released" ∧
      (releaseLock s dflt L none true tm).2.nextAgent = some N ∧
      (releaseLock s dflt L none true tm).2.nextLockId = some L1) ∧
    (∀ (s : Store) (L : String) (t : Nat) (m : LockMeta),
      s.meta L = some m →
      s.lock m.lockKeyT m.lockKeyR = some m.agentId →
      (extendLock s L t none).2.status = "extended" ∧
      (extendLock s L t none).2.newTtl = some t) := by
  refine ⟨?_, ?_, ?_, ?_⟩
  · intro s dflt T R A prio ttl nid iso hc hl
    unfold acquireLock
    dsimp only
    rw [hc, if_neg (show ¬(false = true) by simp),
      if_neg (show ¬(s.lock T R = some A) by simp [hl])]
    unfold acquireMain
    rw [hl]
    exact ⟨rfl, rfl⟩
  · intro s dflt T R A prio ttl nid iso re o hc hl hne
    have hnA : ¬(s.lock T R = some A) := by
      rw [hl]
      simp only [Option.some.injEq]
      exact hne
    unfold acquireLock
    dsimp only
    rw [hc, if_neg (show ¬(false = true) by simp), if_neg hnA]
    unfold acquireMain
    rw [hl]
    dsimp only
    cases hzs : zscore (s.queue T R) A with
    | some sc0 => exact ⟨rfl, rfl⟩
    | none => exact ⟨rfl, rfl⟩
  · intro s dflt L tm m N L1 sc hm hl hmin hncN hal
    obtain ⟨s1, nlid, hloop, -, -, -, -, -, -, -, -, hid⟩ :=
      handoffLoop_first_valid hmin hncN
    have hnl : nlid = L1 := hid L1 hal
    subst hnl
    unfold releaseLock
    rw [hm]
    dsimp only
    rw [if_neg (by simp), hl]
    dsimp only
    rw [if_neg (by simp), hloop]
    simp
  · intro s L t m hm hl
    unfold extendLock
    rw [hm]
    dsimp only
    rw [if_neg (by simp), hl]
    dsimp only
    rw [if_neg (by simp)]
    exact ⟨rfl, rfl⟩

theorem spec_lock_id_amended_witness :
    (acquireLock emptyStore 300 "t" "r" "A" 5 none "L" "iso"
      false).2.lockId = some "L" ∧
    (acquireLock storeHeldA 300 "t" "r" "D" 5 none "ND" "iso"
      false).2.status = "queued" ∧
    (acquireLock storeHeldA 300 "t" "r" "D" 5 none "ND" "iso"
      false).2.lockId = some "ND" ∧
    (releaseLock storeHeldQ 300 "L" none true 0).2.nextLockId =
      some "LC" ∧
    (extendLock storeHeldA "L" 60 none).2.status = "extended" := by
  have h1 := spec_lock_id_amended.1 emptyStore 300 "t" "r" "A" 5 none "L"
    "iso" (by decide) (by decide)
  have h2 := spec_lock_id_amended.2.1 storeHeldA 300 "t" "r" "D" 5 none
    "ND" "iso" false "A" (by decide) (by decide) (by decide)
  have h3 := spec_lock_id_amended.2.2.1 storeHeldQ 300 "L" 0 metaL "C"
    "LC" (-10) (by decide) (by decide) (by decide) (by decide) (by decide)
  have h4 := spec_lock_id_amended.2.2.2 storeHeldA "L" 60 metaL
    (by decide) (by decide)
  exact ⟨h1.2, h2.1, h2.2, h3.2.2, h4.1⟩

/-! ### C9 — HTTP facade -/

/-- C9 counterexample: the facade's request models expose neither the
`reentrant` nor the `idempotent` engine flag, so over HTTP a holder's
repeated acquire is always `error` (re-entrancy unreachable) and releasing
an unknown lock id is always `released` (the non-idempotent error result is
unreachable). -/
theorem spec_facade_counterexample :
    ¬ ("reentrant" ∈ acquireEndpointFields) ∧
    ¬ ("idempotent" ∈ releaseEndpointFields) ∧
    (acquireEndpoint storeHeldA 300 "t" "r" "A" 5 none "N1"
      "iso").2.status = "error" ∧
    (releaseEndpoint emptyStore 300 "LX" none 0).2.status =
      "released" := by decide

/-- C9 (amended) — Facade coverage: each endpoint forwards exactly its
request-model fields (`resource_type`, `resource_id`, `agent_id`,
`priority`, `ttl` for acquire; `lock_id`, `agent_id` for release) to the
engine under the engine's names, with `allow_reentrant` pinned to `false`
and `idempotent` pinned to `true`; consequently no HTTP acquire can return
`already_owned` and an HTTP release of an unknown lock id reports
`released` rather than an error. -/
theorem spec_facade_amended :
    (∀ (s : Store) (dflt : Nat) (T R A : String) (prio : Int)
      (ttl : Option Nat) (nid iso : String),
      acquireEndpoint s dflt T R A prio ttl nid iso =
        acquireLock s dflt T R A prio ttl nid iso false ∧
      (acquireEndpoint s dflt T R A prio ttl nid iso).2.status ≠
        "already_owned") ∧
    (∀ (s : Store) (dflt : Nat) (L : String) (aid : Option String)
      (tm : Nat),
      releaseEndpoint s dflt L aid tm =
        releaseLock s dflt L aid true tm) ∧
    (∀ (s : Store) (dflt : Nat) (L : String) (aid : Option String)
      (tm : Nat), s.meta L = none →
      (releaseEndpoint s dflt L aid tm).2.status = "released") := by
  refine ⟨fun s dflt T R A prio ttl nid iso => ⟨rfl, ?_⟩,
    fun _ _ _ _ _ => rfl, fun s dflt L aid tm hm => ?_⟩
  · unfold acquireEndpoint acquireLock
    dsimp only
    split
    · simp
    · split
      · rcases acquireMain_status s T R A prio (effectiveTtl dflt ttl) nid
          iso with h | h <;> simp [h]
      · rcases acquireMain_status s T R A prio (effectiveTtl dflt ttl) nid
          iso with h | h <;> simp [h]
  · unfold releaseEndpoint releaseLock
    rw [hm]
    rfl

theorem spec_facade_amended_witness :
    (acquireEndpoint storeHeldA 300 "t" "r" "A" 5 none "N1"
      "iso").2.status ≠ "already_owned" ∧
    (releaseEndpoint emptyStore 300 "LX" none 0).2.status =
      "released" :=
  ⟨(spec_facade_amended.1 storeHeldA 300 "t" "r" "A" 5 none "N1" "iso").2,
   spec_facade_amended.2.2 emptyStore 300 "LX" none 0 (by decide)⟩

/-! ### C10 — the two `acquired_at` timestamp formats -/

/-- A host wall-clock reading, as carried by Python's
`datetime.utcnow()`. -/
structure HostTime where
  year : Nat
  month : Nat
  day : Nat
  hour : Nat
  minute : Nat
  second : Nat
  micro : Nat
deriving DecidableEq, Repr

/-- Zero-pad to two digits (`%02d`). -/
def pad2 (n : Nat) : String :=
  if n < 10 then "0" ++ decimalStr n else decimalStr n

/-- Zero-pad to four digits (`%04d`). -/
def pad4 (n : Nat) : String :=
  if n < 10 then "000" ++ decimalStr n
  else if n < 100 then "00" ++ decimalStr n
  else if n < 1000 then "0" ++ decimalStr n
  else decimalStr n

/-- Zero-pad to six digits (`%06d`). -/
def pad6 (n : Nat) : String :=
  if n < 10 then "00000" ++ decimalStr n
  else if n < 100 then "0000" ++ decimalStr n
  else if n < 1000 then "000" ++ decimalStr n
  else if n < 10000 then "00" ++ decimalStr n
  else if n < 100000 then "0" ++ decimalStr n
  else decimalStr n

/-- `datetime.utcnow().isoformat()`:
`YYYY-MM-DDTHH:MM:SS[.ffffff]`, the microsecond part omitted when zero. -/
def isoFormat (t : HostTime) : String :=
  pad4 t.year ++ "-" ++ pad2 t.month ++ "-" ++ pad2 t.day ++ "T" ++
  pad2 t.hour ++ ":" ++ pad2 t.minute ++ ":" ++ pad2 t.second ++
  (if t.micro = 0 then "" else "." ++ pad6 t.micro)

theorem digitChar_isDigit (d : Nat) : (digitChar d).isDigit = true := by
  unfold digitChar
  split <;> decide

theorem decimalStrAux_digits :
    ∀ (fuel n : Nat) (acc : List Char),
      (∀ c ∈ acc, c.isDigit = true) →
      ∀ c ∈ decimalStrAux fuel n acc, c.isDigit = true := by
  intro fuel
  induction fuel with
  | zero => intro n acc hacc c hc; exact hacc c hc
  | succ f ih =>
    intro n acc hacc c hc
    rw [decimalStrAux] at hc
    by_cases hn : n < 10
    · rw [if_pos hn] at hc
      rcases List.mem_cons.mp hc with h | h
      · exact h ▸ digitChar_isDigit n
      · exact hacc c h
    · rw [if_neg hn] at hc
      refine ih (n / 10) (digitChar (n % 10) :: acc) ?_ c hc
      intro c1 hc1
      rcases List.mem_cons.mp hc1 with h | h
      · exact h ▸ digitChar_isDigit (n % 10)
      · exact hacc c1 h

theorem decimalStr_digits (n : Nat) :
    ∀ c ∈ (decimalStr n).data, c.isDigit = true :=
  decimalStrAux_digits (n + 1) n [] (by intro c hc; simp at hc)

theorem isoFormat_mem_T (t : HostTime) : 'T' ∈ (isoFormat t).data := by
  have hT : 'T' ∈ ("T" : String).data := by decide
  simp only [isoFormat, String.data_append, List.mem_append]
  tauto

/-- The host-clock ISO string (which always contains the letter `T`) is
never equal to the store-clock decimal-seconds string (all digits). -/
theorem isoFormat_ne_decimalStr (t : HostTime) (n : Nat) :
    isoFormat t ≠ decimalStr n := by
  intro h
  have hT := isoFormat_mem_T t
  rw [h] at hT
  have := decimalStr_digits n 'T' hT
  exact absurd this (by decide)

/-- C10 — `acquired_at` formats: a lock created directly by acquire stores
the host clock's ISO-8601 string in `acquired_at` (surfaced verbatim by
status), while a lock granted to a waiter during a release handoff stores
the store clock's unix-epoch-seconds decimal string in the same field; the
two formats can never coincide. -/
theorem spec_acquired_at_formats :
    (∀ (s : Store) (dflt : Nat) (T R A : String) (prio : Int)
      (ttl : Option Nat) (nid : String) (ht : HostTime),
      s.cancel T R A = false → s.lock T R = none →
      checkLockStatus
        (acquireLock s dflt T R A prio ttl nid (isoFormat ht) false).1 nid =
        { status := "active", agentId := some A,
          acquiredAt := some (isoFormat ht), resourceType := some T,
          resourceId := some R }) ∧
    (∀ (s : Store) (dflt : Nat) (L : String) (tm : Nat) (m : LockMeta)
      (N L1 : String) (sc : Int),
      s.meta L = some m →
      s.lock m.lockKeyT m.lockKeyR = some m.agentId →
      zminEntry (s.queue m.lockKeyT m.lockKeyR) = some (N, sc) →
      s.cancel m.resourceType m.resourceId N = false →
      s.agentLock m.resourceType m.resourceId N = some L1 →
      checkLockStatus (releaseLock s dflt L none true tm).1 L1 =
        { status := "active", agentId := some N,
          acquiredAt := some (decimalStr tm),
          resourceType := some m.resourceType,
          resourceId := some m.resourceId }) ∧
    (∀ (ht : HostTime) (tm : Nat), isoFormat ht ≠ decimalStr tm) := by
  refine ⟨?_, ?_, fun ht tm => isoFormat_ne_decimalStr ht tm⟩
  · intro s dflt T R A prio ttl nid ht hc hl
    have hred : (acquireLock s dflt T R A prio ttl nid (isoFormat ht)
        false).1 =
        { s with
            lock := upd2 s.lock T R (some A)
            lockTtl := upd2 s.lockTtl T R (effectiveTtl dflt ttl)
            meta := upd1 s.meta nid (some
              { lockKeyT := T, lockKeyR := R, agentId := A, lockId := nid,
                acquiredAt := isoFormat ht, resourceType := T,
                resourceId := R })
            metaTtl := upd1 s.metaTtl nid (effectiveTtl dflt ttl)
            agentLock := upd3 s.agentLock T R A (some nid)
            agentLockTtl := upd3 s.agentLockTtl T R A
              (effectiveTtl dflt ttl) } := by
      unfold acquireLock
      dsimp only
      rw [hc, if_neg (show ¬(false = true) by simp),
        if_neg (show ¬(s.lock T R = some A) by simp [hl])]
      unfold acquireMain
      rw [hl]
    rw [hred]
    unfold checkLockStatus
    dsimp only
    rw [upd1_same]
    dsimp only
    rw [upd2_same]
  · intro s dflt L tm m N L1 sc hm hl hmin hncN hal
    obtain ⟨s1, nlid, hloop, -, -, -, -, -, -, -, -, hid⟩ :=
      handoffLoop_first_valid hmin hncN
    have hnl : nlid = L1 := hid L1 hal
    subst hnl
    have hrel : (releaseLock s dflt L none true tm).1 =
        { s1 with
            meta := upd1 (upd1 s1.meta L none) nlid (some
              { lockKeyT := m.lockKeyT, lockKeyR := m.lockKeyR,
                agentId := N, lockId := nlid,
                acquiredAt := decimalStr tm,
                resourceType := m.resourceType,
                resourceId := m.resourceId })
            agentLock := upd3 (upd3 s1.agentLock m.resourceType
              m.resourceId m.agentId none) m.resourceType m.resourceId N
              (some nlid)
            lock := upd2 s1.lock m.lockKeyT m.lockKeyR (some N)
            lockTtl := upd2 s1.lockTtl m.lockKeyT m.lockKeyR dflt
            metaTtl := upd1 s1.metaTtl nlid dflt
            agentLockTtl := upd3 s1.agentLockTtl m.resourceType
              m.resourceId N dflt
            published := s1.published ++
              [(m.lockKeyT, m.lockKeyR, N, nlid)] } := by
      unfold releaseLock
      rw [hm]
      dsimp only
      rw [if_neg (by simp), hl]
      dsimp only
      rw [if_neg (by simp), hloop]
    rw [hrel]
    unfold checkLockStatus
    dsimp only
    rw [upd1_same]
    dsimp only
    rw [upd2_same]

theorem spec_acquired_at_formats_witness :
    checkLockStatus (acquireLock emptyStore 300 "t" "r" "A" 5 none "L"
        (isoFormat ⟨2026, 1, 1, 0, 0, 0, 0⟩) false).1 "L" =
      { status := "active", agentId := some "A",
        acquiredAt := some (isoFormat ⟨2026, 1, 1, 0, 0, 0, 0⟩),
        resourceType := some "t", resourceId := some "r" } ∧
    checkLockStatus (releaseLock storeHeldQ 300 "L" none true 1700000000).1 "LC" =
      { status := "active", agentId := some "C",
        acquiredAt := some (decimalStr 1700000000),
        resourceType := some "t", resourceId := some "r" } ∧
    isoFormat ⟨2026, 1, 1, 0, 0, 0, 0⟩ ≠ decimalStr 1700000000 := by
  have h1 := spec_acquired_at_formats.1 emptyStore 300 "t" "r" "A" 5 none
    "L" ⟨2026, 1, 1, 0, 0, 0, 0⟩ (by decide) (by decide)
  have h2 := spec_acquired_at_formats.2.1 storeHeldQ 300 "L" 1700000000
    metaL "C" "LC" (-10) (by decide) (by decide) (by decide) (by decide)
    (by decide)
  have h3 := spec_acquired_at_formats.2.2 ⟨2026, 1, 1, 0, 0, 0, 0⟩
    1700000000
  exact ⟨h1, h2, h3⟩

/-! ### C1 — mutual exclusion over arbitrary interleavings

Every mutating engine operation is one atomic store script, so an
interleaving of concurrent operations is a sequence of atomic steps.  `Op`
carries each operation together with its environmental inputs (minted ids,
clocks), plus the store's own TTL-expiry deletions as explicit
environmental steps between scripts. -/

/-- One atomic step at the store: an engine operation or a TTL expiry. -/
inductive Op where
  | acquire (T R A : String) (priority : Int) (ttl : Option Nat)
      (newLockId acquiredAt : String) (allowReentrant : Bool)
  | release (lockId : String) (agentId : Option String) (idempotent : Bool)
      (storeTime : Nat)
  | cancel (T R A : String)
  | extend (lockId : String) (additionalTtl : Nat) (agentId : Option String)
  | expireLockKey (T R : String)
  | expireMetaKey (L : String)
  | expireAgentLockKey (T R A : String)
  | expireCancelKey (T R A : String)

/-- Execute one atomic step. -/
def execOp (dflt : Nat) (s : Store) : Op → Store
  | .acquire T R A p ttl nid iso re =>
    (acquireLock s dflt T R A p ttl nid iso re).1
  | .release L aid idem tm => (releaseLock s dflt L aid idem tm).1
  | .cancel T R A => (cancelLockRequest s T R A).1
  | .extend L t aid => (extendLock s L t aid).1
  | .expireLockKey T R => { s with lock := upd2 s.lock T R none }
  | .expireMetaKey L => { s with meta := upd1 s.meta L none }
  | .expireAgentLockKey T R A =>
    { s with agentLock := upd3 s.agentLock T R A none }
  | .expireCancelKey T R A =>
    { s with cancel := upd3 s.cancel T R A false }

/-- Whether a release from state `s` ends the current lock of the resource
its metadata names: metadata present, the ownership guard passes, and the
lock key still holds the recorded owner. -/
def relEnds (s : Store) (L : String) (aid : Option String) : Bool :=
  match s.meta L with
  | none => false
  | some m =>
    decide (aid.getD "" = "" ∨ aid.getD "" = m.agentId) &&
    decide (s.lock m.lockKeyT m.lockKeyR = some m.agentId)

/-- Number of grants the step makes on `(T, R)`: an `acquired` result, or a
release handoff to a waiter. -/
def opGrants (dflt : Nat) (s : Store) (T R : String) : Op → Int
  | .acquire T1 R1 A p ttl nid iso re =>
    if T1 = T ∧ R1 = R ∧
        (acquireLock s dflt T1 R1 A p ttl nid iso re).2.status = "acquired"
    then 1 else 0
  | .release L aid idem tm =>
    match s.meta L with
    | some m =>
      if m.lockKeyT = T ∧ m.lockKeyR = R ∧
          ((releaseLock s dflt L aid idem tm).2.nextAgent).isSome = true
      then 1 else 0
    | none => 0
  | _ => 0

/-- Number of locks on `(T, R)` the step ends: a release of the current
holder (clean or by handoff), or a TTL expiry of the lock key. -/
def opEnds (_dflt : Nat) (s : Store) (T R : String) : Op → Int
  | .release L aid _ _ =>
    match s.meta L with
    | some m =>
      if m.lockKeyT = T ∧ m.lockKeyR = R ∧ relEnds s L aid = true
      then 1 else 0
    | none => 0
  | .expireLockKey T1 R1 =>
    if T1 = T ∧ R1 = R ∧ (s.lock T R).isSome = true then 1 else 0
  | _ => 0

/-- 1 when the resource currently has a holder, else 0. -/
def holds (s : Store) (T R : String) : Int :=
  if (s.lock T R).isSome = true then 1 else 0

/-- How an acquire step can change the lock-holder table: either it freshly
acquired a previously absent lock key, or it left the table untouched. -/
theorem acquireLock_lock_cases (s : Store) (dflt : Nat) (T1 R1 A : String)
    (p : Int) (ttl : Option Nat) (nid iso : String) (re : Bool) :
    ((acquireLock s dflt T1 R1 A p ttl nid iso re).2.status = "acquired" ∧
      s.lock T1 R1 = none ∧
      (acquireLock s dflt T1 R1 A p ttl nid iso re).1.lock =
        upd2 s.lock T1 R1 (some A)) ∨
    ((acquireLock s dflt T1 R1 A p ttl nid iso re).2.status ≠ "acquired" ∧
      (acquireLock s dflt T1 R1 A p ttl nid iso re).1.lock = s.lock) := by
  have hmain : ∀ t,
      ((acquireMain s T1 R1 A p t nid iso).2.status = "acquired" ∧
        s.lock T1 R1 = none ∧
        (acquireMain s T1 R1 A p t nid iso).1.lock =
          upd2 s.lock T1 R1 (some A)) ∨
      ((acquireMain s T1 R1 A p t nid iso).2.status ≠ "acquired" ∧
        (acquireMain s T1 R1 A p t nid iso).1.lock = s.lock) := by
    intro t
    unfold acquireMain
    split
    · rename_i hl
      exact Or.inl ⟨rfl, hl, rfl⟩
    · split
      · exact Or.inr ⟨show ("queued" : String) ≠ "acquired" by decide, rfl⟩
      · exact Or.inr ⟨show ("queued" : String) ≠ "acquired" by decide, rfl⟩
  unfold acquireLock
  dsimp only
  split
  · exact Or.inr ⟨show ("cancelled" : String) ≠ "acquired" by decide, rfl⟩
  · split
    · split
      · split
        · exact Or.inr
            ⟨show ("already_owned" : String) ≠ "acquired" by decide, rfl⟩
        · exact hmain _
      · exact Or.inr ⟨show ("error" : String) ≠ "acquired" by decide, rfl⟩
    · exact hmain _

/-- How a release step can change the lock-holder table: either it is a
no-op on it (unknown / expired / permission-refused lock), or it ends the
current lock of the metadata's resource — handing it to a waiter or leaving
the resource free. -/
theorem releaseLock_lock_cases (s : Store) (dflt : Nat) (L : String)
    (aid : Option String) (idem : Bool) (tm : Nat) :
    ((releaseLock s dflt L aid idem tm).2.nextAgent = none ∧
      (releaseLock s dflt L aid idem tm).1.lock = s.lock ∧
      relEnds s L aid = false) ∨
    (∃ m, s.meta L = some m ∧ relEnds s L aid = true ∧
      (((releaseLock s dflt L aid idem tm).2.nextAgent = none ∧
        (releaseLock s dflt L aid idem tm).1.lock =
          upd2 s.lock m.lockKeyT m.lockKeyR none) ∨
       (∃ n, (releaseLock s dflt L aid idem tm).2.nextAgent = some n ∧
        (releaseLock s dflt L aid idem tm).1.lock =
          upd2 s.lock m.lockKeyT m.lockKeyR (some n)))) := by
  unfold releaseLock
  split
  · rename_i hmeta
    split
    · exact Or.inl ⟨rfl, rfl, by simp [relEnds, hmeta]⟩
    · exact Or.inl ⟨rfl, rfl, by simp [relEnds, hmeta]⟩
  · rename_i m hmeta
    dsimp only
    split
    · rename_i hguard
      refine Or.inl ⟨rfl, rfl, ?_⟩
      simp only [relEnds, hmeta, Bool.and_eq_false_iff,
        decide_eq_false_iff_not]
      left
      tauto
    · rename_i hguard
      split
      · rename_i hlock
        split
        · refine Or.inl ⟨rfl, rfl, ?_⟩
          simp [relEnds, hmeta, hlock]
        · refine Or.inl ⟨rfl, rfl, ?_⟩
          simp [relEnds, hmeta, hlock]
      · rename_i cur hlock
        split
        · rename_i hcur
          refine Or.inl ⟨rfl, rfl, ?_⟩
          simp only [relEnds, hmeta, Bool.and_eq_false_iff,
            decide_eq_false_iff_not]
          right
          rw [hlock]
          simp only [Option.some.injEq]
          exact hcur
        · rename_i hcur
          have hcur2 : cur = m.agentId := not_ne_iff.mp hcur
          subst hcur2
          have hre : relEnds s L aid = true := by
            simp only [relEnds, hmeta, Bool.and_eq_true, decide_eq_true_eq]
            exact ⟨by tauto, hlock⟩
          obtain ⟨hl1, -, -⟩ := handoffLoop_spec 10 m.lockKeyT m.lockKeyR
            m.resourceType m.resourceId s
          split
          · rename_i s1 n sc nlid hloop
            rw [hloop] at hl1
            refine Or.inr ⟨m, hmeta, hre, Or.inr ⟨n, rfl, ?_⟩⟩
            dsimp only
            rw [hl1]
          · rename_i s1 hloop
            rw [hloop] at hl1
            refine Or.inr ⟨m, hmeta, hre, Or.inl ⟨rfl, ?_⟩⟩
            dsimp only
            rw [hl1]

theorem cancelLockRequest_lock (s : Store) (T R A : String) :
    (cancelLockRequest s T R A).1.lock = s.lock := by
  unfold cancelLockRequest
  split <;> rfl

theorem extendLock_lock (s : Store) (L : String) (t : Nat)
    (aid : Option String) : (extendLock s L t aid).1.lock = s.lock := by
  unfold extendLock
  split
  · rfl
  · dsimp only
    split
    · rfl
    · split
      · rfl
      · split <;> rfl

theorem upd2_ne {α : Type} (f : String → String → α) {k1 k2 x y : String}
    (v : α) (h : ¬(x = k1 ∧ y = k2)) : upd2 f k1 k2 v x y = f x y := by
  dsimp only [upd2]
  rw [if_neg h]

/-- Bookkeeping step lemma: each atomic step changes the holder indicator of
`(T, R)` by exactly its grant count minus its end count. -/
theorem holds_execOp (dflt : Nat) (s : Store) (T R : String) (o : Op) :
    holds (execOp dflt s o) T R =
      holds s T R + opGrants dflt s T R o - opEnds dflt s T R o := by
  cases o with
  | acquire T1 R1 A p ttl nid iso re =>
    show holds (acquireLock s dflt T1 R1 A p ttl nid iso re).1 T R = _
    have he : opEnds dflt s T R (Op.acquire T1 R1 A p ttl nid iso re) = 0 :=
      rfl
    rcases acquireLock_lock_cases s dflt T1 R1 A p ttl nid iso re with
      ⟨hst, hnone, hlock⟩ | ⟨hst, hlock⟩
    · by_cases hk : T1 = T ∧ R1 = R
      · obtain ⟨rfl, rfl⟩ := hk
        have hg : opGrants dflt s T1 R1
            (Op.acquire T1 R1 A p ttl nid iso re) = 1 := by
          unfold opGrants
          dsimp only
          rw [if_pos ⟨rfl, rfl, hst⟩]
        have hpre : holds s T1 R1 = 0 := by simp [holds, hnone]
        have hpost :
            holds (acquireLock s dflt T1 R1 A p ttl nid iso re).1 T1 R1 =
              1 := by
          simp [holds, hlock, upd2_same]
        rw [hpost, hpre, hg, he]
        omega
      · have hk2 : ¬(T = T1 ∧ R = R1) :=
          fun hc => hk ⟨hc.1.symm, hc.2.symm⟩
        have hcond : ¬(T1 = T ∧ R1 = R ∧
            (acquireLock s dflt T1 R1 A p ttl nid iso re).2.status =
              "acquired") := fun hc => hk ⟨hc.1, hc.2.1⟩
        have hg : opGrants dflt s T R
            (Op.acquire T1 R1 A p ttl nid iso re) = 0 := by
          unfold opGrants
          dsimp only
          rw [if_neg hcond]
        have hpost :
            holds (acquireLock s dflt T1 R1 A p ttl nid iso re).1 T R =
              holds s T R := by
          simp [holds, hlock, upd2_ne _ _ hk2]
        rw [hpost, hg, he]
        omega
    · have hcond : ¬(T1 = T ∧ R1 = R ∧
          (acquireLock s dflt T1 R1 A p ttl nid iso re).2.status =
            "acquired") := fun hc => hst hc.2.2
      have hg : opGrants dflt s T R
          (Op.acquire T1 R1 A p ttl nid iso re) = 0 := by
        unfold opGrants
        dsimp only
        rw [if_neg hcond]
      have hpost :
          holds (acquireLock s dflt T1 R1 A p ttl nid iso re).1 T R =
            holds s T R := by
        simp [holds, hlock]
      rw [hpost, hg, he]
      omega
  | release L aid idem tm =>
    show holds (releaseLock s dflt L aid idem tm).1 T R = _
    rcases releaseLock_lock_cases s dflt L aid idem tm with
      ⟨hna, hlock, hre⟩ | ⟨m, hm, hre, disj⟩
    · have hg : opGrants dflt s T R (Op.release L aid idem tm) = 0 := by
        cases hmeta : s.meta L with
        | none => simp [opGrants, hmeta]
        | some m => simp [opGrants, hmeta, hna]
      have he : opEnds dflt s T R (Op.release L aid idem tm) = 0 := by
        cases hmeta : s.meta L with
        | none => simp [opEnds, hmeta]
        | some m => simp [opEnds, hmeta, hre]
      have hpost : holds (releaseLock s dflt L aid idem tm).1 T R =
          holds s T R := by
        simp [holds, hlock]
      rw [hpost, hg, he]
      omega
    · have hre2 := hre
      simp only [relEnds, hm, Bool.and_eq_true, decide_eq_true_eq] at hre2
      obtain ⟨-, hlockpre⟩ := hre2
      by_cases hk : m.lockKeyT = T ∧ m.lockKeyR = R
      · obtain ⟨rfl, rfl⟩ := hk
        have he : opEnds dflt s m.lockKeyT m.lockKeyR
            (Op.release L aid idem tm) = 1 := by
          unfold opEnds
          dsimp only
          rw [hm]
          dsimp only
          rw [if_pos ⟨rfl, rfl, hre⟩]
        have hpre : holds s m.lockKeyT m.lockKeyR = 1 := by
          simp [holds, hlockpre]
        rcases disj with ⟨hna, hlock⟩ | ⟨n, hna, hlock⟩
        · have hg : opGrants dflt s m.lockKeyT m.lockKeyR
              (Op.release L aid idem tm) = 0 := by
            simp [opGrants, hm, hna]
          have hpost : holds (releaseLock s dflt L aid idem tm).1
              m.lockKeyT m.lockKeyR = 0 := by
            simp [holds, hlock, upd2_same]
          rw [hpost, hpre, hg, he]
          omega
        · have hg : opGrants dflt s m.lockKeyT m.lockKeyR
              (Op.release L aid idem tm) = 1 := by
            unfold opGrants
            dsimp only
            rw [hm]
            dsimp only
            rw [if_pos ⟨rfl, rfl, by rw [hna]; rfl⟩]
          have hpost : holds (releaseLock s dflt L aid idem tm).1
              m.lockKeyT m.lockKeyR = 1 := by
            simp [holds, hlock, upd2_same]
          rw [hpost, hpre, hg, he]
          omega
      · have hk2 : ¬(T = m.lockKeyT ∧ R = m.lockKeyR) :=
          fun hc => hk ⟨hc.1.symm, hc.2.symm⟩
        have hcond : ¬(m.lockKeyT = T ∧ m.lockKeyR = R ∧
            ((releaseLock s dflt L aid idem tm).2.nextAgent).isSome =
              true) := fun hc => hk ⟨hc.1, hc.2.1⟩
        have hcond2 : ¬(m.lockKeyT = T ∧ m.lockKeyR = R ∧
            relEnds s L aid = true) := fun hc => hk ⟨hc.1, hc.2.1⟩
        have hg : opGrants dflt s T R (Op.release L aid idem tm) = 0 := by
          unfold opGrants
          dsimp only
          rw [hm]
          dsimp only
          rw [if_neg hcond]
        have he : opEnds dflt s T R (Op.release L aid idem tm) = 0 := by
          unfold opEnds
          dsimp only
          rw [hm]
          dsimp only
          rw [if_neg hcond2]
        have hpost : holds (releaseLock s dflt L aid idem tm).1 T R =
            holds s T R := by
          rcases disj with ⟨hna, hlock⟩ | ⟨n, hna, hlock⟩ <;>
            simp [holds, hlock, upd2_ne _ _ hk2]
        rw [hpost, hg, he]
        omega
  | cancel T1 R1 A =>
    show holds (cancelLockRequest s T1 R1 A).1 T R = _
    have hpost : holds (cancelLockRequest s T1 R1 A).1 T R =
        holds s T R := by
      simp [holds, cancelLockRequest_lock]
    rw [hpost]
    show holds s T R = holds s T R + 0 - 0
    omega
  | extend L t aid =>
    show holds (extendLock s L t aid).1 T R = _
    have hpost : holds (extendLock s L t aid).1 T R = holds s T R := by
      simp [holds, extendLock_lock]
    rw [hpost]
    show holds s T R = holds s T R + 0 - 0
    omega
  | expireLockKey T1 R1 =>
    show holds { s with lock := upd2 s.lock T1 R1 none } T R = _
    have hg : opGrants dflt s T R (Op.expireLockKey T1 R1) = 0 := rfl
    by_cases hk : T1 = T ∧ R1 = R
    · obtain ⟨rfl, rfl⟩ := hk
      have hpost : holds { s with lock := upd2 s.lock T1 R1 none } T1 R1 =
          0 := by
        simp [holds, upd2_same]
      cases hl : s.lock T1 R1 with
      | none =>
        have he : opEnds dflt s T1 R1 (Op.expireLockKey T1 R1) = 0 := by
          simp [opEnds, hl]
        have hpre : holds s T1 R1 = 0 := by simp [holds, hl]
        rw [hpost, hpre, hg, he]
        omega
      | some a =>
        have he : opEnds dflt s T1 R1 (Op.expireLockKey T1 R1) = 1 := by
          unfold opEnds
          dsimp only
          rw [if_pos ⟨rfl, rfl, by simp [hl]⟩]
        have hpre : holds s T1 R1 = 1 := by simp [holds, hl]
        rw [hpost, hpre, hg, he]
        omega
    · have hk2 : ¬(T = T1 ∧ R = R1) := fun hc => hk ⟨hc.1.symm, hc.2.symm⟩
      have hcond : ¬(T1 = T ∧ R1 = R ∧ (s.lock T R).isSome = true) :=
        fun hc => hk ⟨hc.1, hc.2.1⟩
      have he : opEnds dflt s T R (Op.expireLockKey T1 R1) = 0 := by
        unfold opEnds
        dsimp only
        rw [if_neg hcond]
      have hpost : holds { s with lock := upd2 s.lock T1 R1 none } T R =
          holds s T R := by
        simp [holds, upd2_ne _ _ hk2]
      rw [hpost, hg, he]
      omega
  | expireMetaKey L =>
    show holds s T R = holds s T R + 0 - 0
    omega
  | expireAgentLockKey T1 R1 A =>
    show holds s T R = holds s T R + 0 - 0
    omega
  | expireCancelKey T1 R1 A =>
    show holds s T R = holds s T R + 0 - 0
    omega

/-- Run a sequence of atomic steps. -/
def execTrace (dflt : Nat) : Store → List Op → Store
  | s, [] => s
  | s, o :: os => execTrace dflt (execOp dflt s o) os

/-- Total number of grants on `(T, R)` along a trace. -/
def traceGrants (dflt : Nat) (T R : String) : Store → List Op → Int
  | _, [] => 0
  | s, o :: os =>
    opGrants dflt s T R o + traceGrants dflt T R (execOp dflt s o) os

/-- Total number of ended (released or expired) locks on `(T, R)` along a
trace. -/
def traceEnds (dflt : Nat) (T R : String) : Store → List Op → Int
  | _, [] => 0
  | s, o :: os =>
    opEnds dflt s T R o + traceEnds dflt T R (execOp dflt s o) os

theorem holds_execTrace (dflt : Nat) (T R : String) :
    ∀ (os : List Op) (s : Store),
      holds (execTrace dflt s os) T R =
        holds s T R + traceGrants dflt T R s os - traceEnds dflt T R s os := by
  intro os
  induction os with
  | nil => intro s; simp [execTrace, traceGrants, traceEnds]
  | cons o os ih =>
    intro s
    rw [execTrace, traceGrants, traceEnds, ih (execOp dflt s o),
      holds_execOp dflt s T R o]
    omega

/-- C1 — Mutual exclusion: over every interleaving of atomic engine
operations and TTL expiries starting from the empty store, the number of
grants on `(T, R)` (`acquired` results plus release handoffs) minus the
matching released or expired locks is at most 1; equivalently the lock key
holds at most one agent id at a time. -/
theorem spec_mutual_exclusion (dflt : Nat) (T R : String) (os : List Op) :
    traceGrants dflt T R emptyStore os -
      traceEnds dflt T R emptyStore os ≤ 1 ∧
    (∀ A B, (execTrace dflt emptyStore os).lock T R = some A →
      (execTrace dflt emptyStore os).lock T R = some B → A = B) := by
  constructor
  · have h := holds_execTrace dflt T R os emptyStore
    have h0 : holds emptyStore T R = 0 := by simp [holds, emptyStore]
    have h1 : holds (execTrace dflt emptyStore os) T R ≤ 1 := by
      unfold holds
      split <;> omega
    omega
  · intro A B hA hB
    rw [hA] at hB
    exact Option.some.inj hB

end ProtoMesh
